import Mathlib

/-!
Shallow embedding of the third-party license compliance subsystem of the
folio-org/tc-module-eval repository, together with proofs about the claims
of its specification.

The embedding covers:
* the compliance evaluator (`checkLicenseCompliance` and its helpers) from
  `src/utils/license-compliance.ts`;
* the dependency deduplication and the extraction orchestrator
  (`deduplicateDependencies`, `getDependencies`) from
  `src/utils/dependency-orchestrator.ts`, with the effectful sub-calls
  (filesystem checks, build-tool parsers) abstracted into an environment;
* the control flow of the Maven parser (`getMavenDependencies`) from
  `src/utils/parsers/maven-dependency-parser.ts`, likewise over an
  environment.

JavaScript strings are modelled as Lean `String`; `String.prototype.includes`
becomes list-infix containment on the underlying character lists,
`toLowerCase` maps `Char.toLower` over the characters, and the
`trim().length > 0` test of `isNonEmptyString` becomes "some character is not
whitespace".

The license policy table (`getLicenseCategoryNormalized`,
`isSpecialException`) is loaded from configuration files that are not part of
the source tree, so the evaluator is parametrised by a `LicensePolicy`
record; `testPolicy` below reproduces the concrete table that the
repository's own test suite installs, and `specPolicy` is modelled from the
specification's description of the policy.
-/

set_option maxRecDepth 200000

/-- Substring containment: `hay.includes(needle)` of JavaScript. -/
def includesStr (hay needle : String) : Bool :=
  decide (needle.data <:+: hay.data)

/-- JavaScript `toLowerCase`, character by character. -/
def jsToLower (s : String) : String :=
  ⟨s.data.map Char.toLower⟩

/-- Type guard from `type-guards.ts`: `typeof value === 'string' && value.trim().length > 0`.
A string trims to nonempty exactly when some character is not whitespace. -/
def isNonEmptyString (s : String) : Bool :=
  s.data.any (fun c => !c.isWhitespace)

/-- The four policy buckets of `license-policy.ts` (`LicenseCategory`):
Category A (approved), Category B (requires documentation), B_WCL (weak
copyleft variant of B), Category X (prohibited). -/
inductive LicenseCategory where
  | A
  | B
  | B_WCL
  | X
deriving DecidableEq, Repr

/-- Issue kinds from `types.ts` (`LicenseIssueType`), as used by
`license-compliance.ts`. -/
inductive LicenseIssueType where
  | NO_LICENSE_INFO
  | UNKNOWN_LICENSE
  | UNDOCUMENTED_CATEGORY_B
  | CATEGORY_X_VIOLATION
  | PARSER_ERROR
deriving DecidableEq, Repr

/-- Per-license evaluation statuses from `types.ts` (`EvaluationStatus`),
as used inside `evaluateMultipleLicenses`. -/
inductive EvaluationStatus where
  | PASS
  | FAIL
  | MANUAL
deriving DecidableEq, Repr

/-- A dependency record; `licenses` is `Option` because the field may be
`undefined` in the TypeScript source. -/
structure Dependency where
  name : String
  version : String
  licenses : Option (List String)
deriving DecidableEq, Repr

/-- Type guard from `type-guards.ts`: name and version both nonempty. -/
def isValidDependency (dep : Dependency) : Bool :=
  isNonEmptyString dep.name && isNonEmptyString dep.version

/-- The license policy interface of `license-policy.ts`, whose
implementation (three configuration files) is external to the evaluator. -/
structure LicensePolicy where
  getLicenseCategoryNormalized : String → Option LicenseCategory
  isSpecialException : String → Bool

/-- One compliance issue (`ComplianceIssue` of `types.ts`). -/
structure ComplianceIssue where
  dependency : Dependency
  reason : String
  issueType : LicenseIssueType
deriving DecidableEq, Repr

/-- Result of `checkLicenseCompliance` (`ComplianceResult` of `types.ts`). -/
structure ComplianceResult where
  compliant : Bool
  issues : List ComplianceIssue
deriving DecidableEq, Repr

/-- `isLGPLLicense` of `license-compliance.ts`. -/
def isLGPLLicense (license : String) : Bool :=
  if !isNonEmptyString license then false
  else
    let lower := jsToLower license
    includesStr lower "lgpl" || includesStr lower "lesser general public"

/-- `getLicenseDocumentationKeywords` of `license-compliance.ts`: the keyword
family derived from a license name. -/
def getLicenseDocumentationKeywords (licenseName : String) : List String :=
  if !isNonEmptyString licenseName then []
  else
    let lowerLicense := jsToLower licenseName
    (if includesStr lowerLicense "lgpl" || includesStr lowerLicense "lesser general public" then
      ["lgpl", "lesser general public license"] else []) ++
    (if includesStr lowerLicense "mpl" || includesStr lowerLicense "mozilla" then
      ["mpl", "mozilla public license", "mozilla"] else []) ++
    (if includesStr lowerLicense "epl" || includesStr lowerLicense "eclipse" then
      ["epl", "eclipse public license", "eclipse"] else []) ++
    (if includesStr lowerLicense "cddl" || includesStr lowerLicense "common development" then
      ["cddl", "common development", "common development and distribution license"] else [])

/-- `isCategoryBLicenseDocumented` of `license-compliance.ts`. -/
def isCategoryBLicenseDocumented (pol : LicensePolicy) (dependency : Dependency)
    (readmeContent : String) : Bool :=
  match dependency.licenses with
  | none => false
  | some licenses =>
    if !isNonEmptyString readmeContent then false
    else
      let content := jsToLower readmeContent
      licenses.any fun license =>
        isNonEmptyString license &&
        (match pol.getLicenseCategoryNormalized license with
         | some .B | some .B_WCL =>
           (getLicenseDocumentationKeywords license).any fun keyword =>
             includesStr content (jsToLower keyword)
         | _ => false)

/-- `isDocumentedInReadme` of `license-compliance.ts`: the dependency name is
mentioned, or a Category B license family keyword is mentioned. -/
def isDocumentedInReadme (pol : LicensePolicy) (dependency : Dependency)
    (readmeContent : String) : Bool :=
  if !isValidDependency dependency then false
  else
    includesStr (jsToLower readmeContent) (jsToLower dependency.name) ||
    isCategoryBLicenseDocumented pol dependency readmeContent

/-- `LicenseEvaluation` of `license-compliance.ts`. -/
structure LicenseEvaluation where
  license : String
  category : Option LicenseCategory
  status : EvaluationStatus
  reason : String
  issueType : Option LicenseIssueType
deriving DecidableEq, Repr

/-- The Category B / B_WCL case of the license loop of
`evaluateMultipleLicenses`: pass when documented, fail otherwise. -/
def categoryBEvaluation (pol : LicensePolicy) (dependency : Dependency)
    (readmeContent : String) (license : String) (cat : LicenseCategory) :
    LicenseEvaluation :=
  let singleLicenseDep : Dependency := { dependency with licenses := some [license] }
  if isDocumentedInReadme pol singleLicenseDep readmeContent then
    { license := license, category := some cat, status := .PASS,
      reason := s!"Category B license '{license}' is documented in README",
      issueType := none }
  else
    { license := license, category := some cat, status := .FAIL,
      reason := s!"Category B license '{license}' not documented in README",
      issueType := some .UNDOCUMENTED_CATEGORY_B }

/-- One iteration of the license loop of `evaluateMultipleLicenses`: the
evaluation record produced for a single license. -/
def evalSingleLicense (pol : LicensePolicy) (dependency : Dependency)
    (readmeContent : String) (license : String) : LicenseEvaluation :=
  match pol.getLicenseCategoryNormalized license with
  | none =>
    { license := license, category := none, status := .MANUAL,
      reason := s!"Unknown license '{license}'",
      issueType := some .UNKNOWN_LICENSE }
  | some .A =>
    { license := license, category := some .A, status := .PASS,
      reason := s!"Category A license '{license}' is approved",
      issueType := none }
  | some .B => categoryBEvaluation pol dependency readmeContent license .B
  | some .B_WCL => categoryBEvaluation pol dependency readmeContent license .B_WCL
  | some .X =>
    if isLGPLLicense license && pol.isSpecialException dependency.name then
      let singleLicenseDep : Dependency := { dependency with licenses := some [license] }
      if isDocumentedInReadme pol singleLicenseDep readmeContent then
        { license := license, category := some .X, status := .PASS,
          reason := s!"LGPL license '{license}' with special exception is documented",
          issueType := none }
      else
        { license := license, category := some .X, status := .FAIL,
          reason := s!"LGPL license '{license}' requires documentation (special exception: {dependency.name})",
          issueType := some .UNDOCUMENTED_CATEGORY_B }
    else
      { license := license, category := some .X, status := .FAIL,
        reason := s!"License '{license}' is in Category X (prohibited)",
        issueType := some .CATEGORY_X_VIOLATION }

/-- The combination step after the loop of `evaluateMultipleLicenses`:
first PASS wins; otherwise, if any evaluation needs manual review, a single
unknown-license result; otherwise the first failure; final fallback. -/
def combineEvaluations (licenses : List String)
    (evaluations : List LicenseEvaluation) : LicenseEvaluation :=
  match evaluations.find? (fun e => e.status == .PASS) with
  | some passed => passed
  | none =>
    if evaluations.any (fun e => e.status == .MANUAL) then
      let manualLicenses :=
        (evaluations.filter (fun e => e.status == .MANUAL)).map (fun e => e.license)
      let joined := String.intercalate ", " manualLicenses
      { license := String.intercalate " | " licenses, category := none,
        status := .MANUAL,
        reason := s!"Unknown licenses require manual review: {joined}",
        issueType := some .UNKNOWN_LICENSE }
    else
      match evaluations.find? (fun e => e.status == .FAIL) with
      | some failed => failed
      | none =>
        match evaluations.head? with
        | some e => e
        | none =>
          { license := String.intercalate " | " licenses, category := none,
            status := .MANUAL, reason := "Unable to evaluate licenses",
            issueType := some .UNKNOWN_LICENSE }

/-- The license loop of `evaluateMultipleLicenses`: evaluations accumulate in
order, except that a Category A license returns immediately. -/
def evaluateMultipleLicensesGo (pol : LicensePolicy) (dependency : Dependency)
    (readmeContent : String) (licenses : List String) :
    List String → List LicenseEvaluation → LicenseEvaluation
  | [], evaluations => combineEvaluations licenses evaluations
  | license :: rest, evaluations =>
    let e := evalSingleLicense pol dependency readmeContent license
    if e.category == some .A then e
    else evaluateMultipleLicensesGo pol dependency readmeContent licenses rest
      (evaluations ++ [e])

/-- `evaluateMultipleLicenses` of `license-compliance.ts`. -/
def evaluateMultipleLicenses (pol : LicensePolicy) (licenses : List String)
    (dependency : Dependency) (readmeContent : String) : LicenseEvaluation :=
  if licenses.isEmpty then
    { license := "Unknown", category := none, status := .MANUAL,
      reason := "No license information available",
      issueType := some .NO_LICENSE_INFO }
  else
    evaluateMultipleLicensesGo pol dependency readmeContent licenses licenses []

/-- Separator detection of the parser-contract validation in
`checkLicenseCompliance` (lines 361-367 of `license-compliance.ts`). -/
def hasUnsplitSeparator (license : String) : Bool :=
  includesStr license "|" ||
  includesStr license " OR " ||
  includesStr license " AND " ||
  (includesStr license "(" && includesStr license ")") ||
  includesStr license " WITH "

/-- The reason string of a parser-contract-violation issue. -/
def parserErrorReason (unsplitLicenses : List String) : String :=
  let found := String.intercalate ", " unsplitLicenses
  s!"Parser error: Licenses not properly split (found separators in: {found})"

/-- The issue pushed for a dependency whose `licenses` field is absent or an
empty array. -/
def noLicenseInfoIssue (dependency : Dependency) : ComplianceIssue :=
  { dependency := dependency, reason := "No license information available",
    issueType := .NO_LICENSE_INFO }

/-- The single-license branch of the per-dependency loop of
`checkLicenseCompliance` (lines 397-452 of `license-compliance.ts`). -/
def singleLicenseIssues (pol : LicensePolicy) (readmeContent : String)
    (dependency : Dependency) (license : String) : List ComplianceIssue :=
  match pol.getLicenseCategoryNormalized license with
  | none =>
    [{ dependency := dependency,
       reason := s!"Unknown license '{license}' - requires manual review",
       issueType := .UNKNOWN_LICENSE }]
  | some .X =>
    if isLGPLLicense license && pol.isSpecialException dependency.name then
      if !isDocumentedInReadme pol dependency readmeContent then
        [{ dependency := dependency,
           reason := s!"LGPL license '{license}' requires documentation in README (special exception: {dependency.name})",
           issueType := .UNDOCUMENTED_CATEGORY_B }]
      else []
    else
      [{ dependency := dependency,
         reason := s!"License '{license}' is in Category X (prohibited)",
         issueType := .CATEGORY_X_VIOLATION }]
  | some .B | some .B_WCL =>
    if !isDocumentedInReadme pol dependency readmeContent then
      if pol.isSpecialException dependency.name then
        [{ dependency := dependency,
           reason := s!"Category B license '{license}' not documented in README (special exception: {dependency.name})",
           issueType := .UNDOCUMENTED_CATEGORY_B }]
      else
        [{ dependency := dependency,
           reason := s!"Category B license '{license}' not documented in README",
           issueType := .UNDOCUMENTED_CATEGORY_B }]
    else []
  | some .A => []

/-- The body of the per-dependency loop of `checkLicenseCompliance`: the
issues recorded for one dependency. The source's non-null assertion
`evaluation.issueType!` is rendered with a default that is never used, since
every FAIL or MANUAL evaluation carries an issue type. -/
def checkDependency (pol : LicensePolicy) (readmeContent : String)
    (dependency : Dependency) : List ComplianceIssue :=
  if !isValidDependency dependency then []
  else match dependency.licenses with
  | none => [noLicenseInfoIssue dependency]
  | some licenses =>
    if licenses.isEmpty then [noLicenseInfoIssue dependency]
    else
      let allLicenses := licenses.filter isNonEmptyString
      if allLicenses.isEmpty then
        [{ dependency := dependency,
           reason := "No valid license information available",
           issueType := .NO_LICENSE_INFO }]
      else
        let unsplitLicenses := allLicenses.filter hasUnsplitSeparator
        if !unsplitLicenses.isEmpty then
          [{ dependency := dependency,
             reason := parserErrorReason unsplitLicenses,
             issueType := .PARSER_ERROR }]
        else if allLicenses.length > 1 then
          let evaluation := evaluateMultipleLicenses pol allLicenses dependency readmeContent
          if evaluation.status == .FAIL || evaluation.status == .MANUAL then
            [{ dependency := dependency, reason := evaluation.reason,
               issueType := evaluation.issueType.getD .UNKNOWN_LICENSE }]
          else []
        else
          singleLicenseIssues pol readmeContent dependency (allLicenses.headD "")

/-- The dynamically-typed first argument of `checkLicenseCompliance`: the
source defensively checks `Array.isArray`. -/
inductive DepsArg where
  | arr (deps : List Dependency)
  | notArray
deriving Repr

/-- The dynamically-typed second argument of `checkLicenseCompliance`: the
source defensively checks `typeof readmeContent !== 'string'`. -/
inductive DocArg where
  | str (s : String)
  | notString
deriving Repr

/-- `checkLicenseCompliance` of `license-compliance.ts`. -/
def checkLicenseCompliance (pol : LicensePolicy) (dependencies : DepsArg)
    (readmeContent : DocArg) : ComplianceResult :=
  match dependencies with
  | .notArray => { compliant := false, issues := [] }
  | .arr deps =>
    let readme := match readmeContent with | .str s => s | .notString => ""
    let issues := deps.flatMap (checkDependency pol readme)
    { compliant := issues.isEmpty, issues }

/-- The concrete policy table that the repository's test suite
(`dependency-utils.test.ts`) installs for `getLicenseCategoryNormalized`
and `isSpecialException`. -/
def testPolicy : LicensePolicy where
  getLicenseCategoryNormalized := fun licenseName =>
    if licenseName == "Apache-2.0" || licenseName == "MIT" ||
        licenseName == "BSD-2-Clause" then some .A
    else if licenseName == "LGPL-2.1" || licenseName == "MPL-2.0" ||
        licenseName == "Mozilla Public License 2.0" || licenseName == "EPL-2.0" ||
        licenseName == "Eclipse Public License 1.0" ||
        licenseName == "Eclipse Public License 2.0" || licenseName == "CDDL-1.0" ||
        licenseName == "Common Development and Distribution License 1.0" then some .B
    else if licenseName == "GPL-3.0" then some .X
    else none
  isSpecialException := fun dependencyName =>
    dependencyName == "org.hibernate:hibernate-core" ||
    dependencyName == "org.z3950.zing:cql-java" ||
    "org.hibernate".data.isPrefixOf dependencyName.data

/-- Modelled from the spec: the policy configuration files
(`config/license-categories.json`, `config/license-variation.json`,
`config/special-exception.json`) are not part of the source tree. Per the
specification, Apache/MIT/BSD are Approved, MPL/EPL/CDDL are Conditional,
GPL is Prohibited, the LGPL ("Lesser") weak-copyleft family is Prohibited
but eligible for named special exceptions, and
`org.hibernate:hibernate-core` is such a special-exception name. -/
def specPolicy : LicensePolicy where
  getLicenseCategoryNormalized := fun licenseName =>
    if licenseName == "Apache-2.0" || licenseName == "MIT" ||
        licenseName == "BSD-2-Clause" || licenseName == "BSD-3-Clause" then some .A
    else if licenseName == "MPL-2.0" || licenseName == "EPL-2.0" ||
        licenseName == "CDDL-1.0" then some .B
    else if licenseName == "LGPL-2.1" || licenseName == "LGPL-3.0" ||
        licenseName == "GPL-2.0" || licenseName == "GPL-3.0" then some .X
    else none
  isSpecialException := fun dependencyName =>
    dependencyName == "org.hibernate:hibernate-core" ||
    dependencyName == "org.z3950.zing:cql-java"

/-- True when the `licenses` field is present and non-empty: the truthiness
of `dep.licenses?.length` in the deduplication condition. -/
def hasLicenses (dep : Dependency) : Bool :=
  match dep.licenses with
  | some (_ :: _) => true
  | _ => false

/-- The `name:version` deduplication key. -/
def depKey (dep : Dependency) : String :=
  dep.name ++ ":" ++ dep.version

/-- JavaScript `Map` modelled as an insertion-ordered association list:
`Map.prototype.has`. -/
def mapHas (m : List (String × Dependency)) (key : String) : Bool :=
  m.any (fun p => p.1 == key)

/-- JavaScript `Map.prototype.get` (`undefined` becomes `none`). -/
def mapGet (m : List (String × Dependency)) (key : String) : Option Dependency :=
  (m.find? (fun p => p.1 == key)).map (fun p => p.2)

/-- JavaScript `Map.prototype.set`: update in place when the key exists
(keeping its position), append otherwise. -/
def mapSet (m : List (String × Dependency)) (key : String) (dep : Dependency) :
    List (String × Dependency) :=
  if mapHas m key then
    m.map (fun p => if p.1 == key then (key, dep) else p)
  else
    m ++ [(key, dep)]

/-- Loop body of `deduplicateDependencies` of `dependency-orchestrator.ts`:
store the record when the key is new, or when the stored record has no
license information and the current one does. -/
def deduplicateStep (m : List (String × Dependency)) (dep : Dependency) :
    List (String × Dependency) :=
  if !isValidDependency dep then m
  else
    let key := depKey dep
    if !mapHas m key ||
        (!((mapGet m key).map hasLicenses).getD false && hasLicenses dep) then
      mapSet m key dep
    else m

/-- `deduplicateDependencies` of `dependency-orchestrator.ts`. -/
def deduplicateDependencies (dependencies : List Dependency) : List Dependency :=
  ((dependencies.foldl deduplicateStep []).map (fun p => p.2))

/-- An extraction error or warning record (`DependencyExtractionError` of
`types.ts`); the underlying `Error` object is reduced to its message. -/
structure ExtractionError where
  source : String
  message : String
deriving DecidableEq, Repr

/-- `DependencyExtractionResult` of `types.ts`. -/
structure DependencyExtractionResult where
  dependencies : List Dependency
  errors : List ExtractionError
  warnings : List ExtractionError
deriving DecidableEq, Repr

/-- Outcome of an effectful JavaScript sub-call: a value, or a thrown
exception carrying a message. -/
inductive JsOutcome (α : Type) where
  | ok (a : α)
  | thrown (msg : String)
deriving DecidableEq, Repr

/-- Environment abstracting the effectful sub-calls made by the
orchestrator's `getDependencies`: the `fs.existsSync` check, the two
project-detection calls, and the two parser invocations. A `thrown` value
models the corresponding call raising a JavaScript exception. -/
structure OrchestratorEnv where
  pathExists : JsOutcome Bool
  hasMaven : JsOutcome Bool
  hasGradle : JsOutcome Bool
  mavenResult : JsOutcome DependencyExtractionResult
  gradleResult : JsOutcome DependencyExtractionResult

/-- Intermediate mutable state of `getDependencies` at the moment an
exception escapes to the `catch` block: the errors and warnings pushed so
far. -/
structure OrchState where
  errors : List ExtractionError
  warnings : List ExtractionError
deriving DecidableEq, Repr

/-- The `try` block of the orchestrator's `getDependencies`: either a
normal result, or the state at the moment a sub-call threw. -/
def getDependenciesTry (repoPath : String) (env : OrchestratorEnv) :
    Except OrchState DependencyExtractionResult :=
  match env.pathExists with
  | .thrown _ => .error ⟨[], []⟩
  | .ok false =>
    .ok { dependencies := [], errors := [],
          warnings := [⟨"dependency-orchestrator",
            s!"Repository path does not exist: {repoPath}"⟩] }
  | .ok true =>
    match env.hasMaven with
    | .thrown _ => .error ⟨[], []⟩
    | .ok hasMaven =>
      match env.hasGradle with
      | .thrown _ => .error ⟨[], []⟩
      | .ok hasGradle =>
        match (if hasMaven then env.mavenResult else .ok ⟨[], [], []⟩) with
        | .thrown _ => .error ⟨[], []⟩
        | .ok mavenRes =>
          let deps1 := mavenRes.dependencies.filter isValidDependency
          match (if hasGradle then env.gradleResult else .ok ⟨[], [], []⟩) with
          | .thrown _ => .error ⟨mavenRes.errors, mavenRes.warnings⟩
          | .ok gradleRes =>
            let deps := deps1 ++ gradleRes.dependencies.filter isValidDependency
            let errors := mavenRes.errors ++ gradleRes.errors
            let warnings := mavenRes.warnings ++ gradleRes.warnings
            let warnings2 :=
              if deps.isEmpty && errors.isEmpty && !hasMaven && !hasGradle then
                warnings ++ [⟨"dependency-orchestrator",
                  "No supported build tools found (Maven, Gradle). Future support: npm, Go, Rust."⟩]
              else warnings
            .ok { dependencies := deduplicateDependencies deps,
                  errors := errors, warnings := warnings2 }

/-- `getDependencies` of `dependency-orchestrator.ts`: parameter validation,
then the `try` block, with the `catch` block converting any escaped
exception into an orchestrator-tagged error entry and an empty dependency
list. -/
def getDependencies (repoPath : String) (env : OrchestratorEnv) :
    DependencyExtractionResult :=
  if !isNonEmptyString repoPath then
    { dependencies := [],
      errors := [⟨"dependency-orchestrator",
        "Repository path must be a non-empty string"⟩],
      warnings := [] }
  else
    match getDependenciesTry repoPath env with
    | .ok r => r
    | .error st =>
      { dependencies := [],
        errors := st.errors ++ [⟨"dependency-orchestrator",
          s!"Error extracting dependencies from {repoPath}"⟩],
        warnings := st.warnings }

/-- Outcome of the `execAsync` invocation of the Maven license plugin,
classified the way the `catch` block of `getMavenDependencies` classifies
thrown errors (`isMaxBufferError`, `isTimeoutError`, other). -/
inductive ExecOutcome where
  | ok (stdout : String)
  | maxBufferError
  | timeoutError
  | otherError (msg : String)
deriving DecidableEq, Repr

/-- Environment abstracting the effectful sub-calls of the Maven parser's
`getMavenDependencies`: the validated repository path (`validateRepoPath`),
the Maven license-plugin execution, the `safeReadFile` of the generated
`THIRD-PARTY.txt`, and the output a `mvn dependency:list` invocation would
produce (recorded here to express claims about a fallback; the current
source never runs that command). -/
structure MavenEnv where
  validatedPath : Option String
  execOutcome : ExecOutcome
  thirdPartyContent : Option String
  depListOutput : String

/-- Control flow of `getMavenDependencies` of
`maven-dependency-parser.ts`, parametrised by the pure
`parseMavenThirdPartyFile` text parser (`parse3p`). `getMavenPackaging`
only selects the Maven goal string and handles its own errors, so it does
not appear in the outcome. -/
def getMavenDependencies (parse3p : String → List Dependency)
    (repoPath : String) (env : MavenEnv) : DependencyExtractionResult :=
  match env.validatedPath with
  | none =>
    { dependencies := [],
      errors := [⟨"maven-parser", s!"Invalid repository path: {repoPath}"⟩],
      warnings := [] }
  | some _ =>
    match env.execOutcome with
    | .maxBufferError =>
      { dependencies := [],
        errors := [⟨"maven-parser", "Maven build output exceeded buffer size (50MB)."⟩],
        warnings := [] }
    | .timeoutError =>
      { dependencies := [],
        errors := [⟨"maven-parser", "Maven build timed out after 5 minutes."⟩],
        warnings := [] }
    | .otherError msg =>
      { dependencies := [],
        errors := [⟨"maven-parser", s!"Failed to extract Maven dependencies: {msg}"⟩],
        warnings := [] }
    | .ok _ =>
      match env.thirdPartyContent with
      | some content =>
        { dependencies := parse3p content, errors := [], warnings := [] }
      | none =>
        { dependencies := [],
          errors := [],
          warnings := [⟨"maven-parser",
            "Maven license plugin did not generate THIRD-PARTY.txt file. This typically means the project has no third-party dependencies. Expected location: target/licenses/THIRD-PARTY.txt"⟩] }

/-- A dual-licensed dependency (test input shape `Apache-2.0|GPL-3.0` split)
listing the prohibited license first. -/
def depGPLApache : Dependency :=
  ⟨"org.example:mixed-lib", "1.0.0", some ["GPL-3.0", "Apache-2.0"]⟩

/-- The same dependency with the two licenses swapped. -/
def depApacheGPL : Dependency :=
  ⟨"org.example:mixed-lib", "1.0.0", some ["Apache-2.0", "GPL-3.0"]⟩

/-- A dual-licensed dependency pairing an unknown license with a prohibited
one. -/
def depUnknownProhibited : Dependency :=
  ⟨"org.example:unknown-prohibited", "1.0.0", some ["SomeUnknownLicense", "GPL-3.0"]⟩

/-- A dual-licensed dependency pairing an undocumented Category B license
with an unknown one. -/
def depMplUnknown : Dependency :=
  ⟨"org.example:mpl-unknown", "1.0.0", some ["MPL-2.0", "SomeUnknownLicense"]⟩

/-- A dependency whose parser left a pipe-separated license unsplit
(test input `Apache-2.0|MIT`). -/
def depUnsplit : Dependency :=
  ⟨"org.example:unsplit-licenses", "1.0.0", some ["Apache-2.0|MIT"]⟩

/-- The Hibernate dependency of the specification's end-to-end scenario C. -/
def hibernateDep : Dependency :=
  ⟨"org.hibernate:hibernate-core", "5.6.0", some ["LGPL-2.1"]⟩

/-- A single-license Category B dependency (test input). -/
def depLgpl : Dependency :=
  ⟨"some.lgpl:library", "1.0.0", some ["LGPL-2.1"]⟩

/-- A dependency whose licenses array holds only blank strings. -/
def depBlankLicenses : Dependency :=
  ⟨"org.example:blank-licenses", "1.0.0", some ["", "   "]⟩

/-- A dependency record without license information, colliding with
`depWithLicense` on the `(name, version)` key. -/
def depNoLicense : Dependency := ⟨"org.shared:lib", "2.0.0", none⟩

/-- A license-bearing dependency record with the same `(name, version)` key
as `depNoLicense`. -/
def depWithLicense : Dependency := ⟨"org.shared:lib", "2.0.0", some ["MIT"]⟩

/-- An orchestrator environment in which the Maven parser invocation throws. -/
def envMavenThrows : OrchestratorEnv :=
  { pathExists := .ok true, hasMaven := .ok true, hasGradle := .ok false,
    mavenResult := .thrown "spawn failure", gradleResult := .ok ⟨[], [], []⟩ }

/-- A Maven-parser environment in which the license-plugin command succeeds
but `THIRD-PARTY.txt` is absent, while a dependency-listing command would
have printed a standard dependency line. -/
def mavenEnvNoReport : MavenEnv :=
  { validatedPath := some "/repo", execOutcome := .ok "",
    thirdPartyContent := none,
    depListOutput := "[INFO]    org.apache.commons:commons-lang3:jar:3.12.0:compile" }

theorem includesStr_iff (hay needle : String) :
    includesStr hay needle = true ↔ needle.data <:+: hay.data :=
  decide_eq_true_iff

theorem mem_of_includes {hay needle : String} {c : Char}
    (h : includesStr hay needle = true) (hc : c ∈ needle.data) : c ∈ hay.data :=
  ((includesStr_iff hay needle).mp h).subset hc

theorem isNonEmptyString_of_mem {s : String} {c : Char} (hc : c ∈ s.data)
    (hw : c.isWhitespace = false) : isNonEmptyString s = true := by
  simp only [isNonEmptyString, List.any_eq_true]
  exact ⟨c, hc, by simp [hw]⟩

theorem allWhitespace_of_blank {s : String} (h : isNonEmptyString s = false) :
    ∀ c ∈ s.data, c.isWhitespace = true := by
  intro c hc
  by_contra hw
  simp only [isNonEmptyString, List.any_eq_false] at h
  have := h c hc
  simp only [Bool.not_eq_true] at hw
  simp [hw] at this

theorem toLower_of_whitespace {c : Char} (h : c.isWhitespace = true) :
    c.toLower = c := by
  simp only [Char.isWhitespace, Bool.or_eq_true, decide_eq_true_eq] at h
  rcases h with ((rfl | rfl) | rfl) | rfl <;> decide

theorem jsToLower_blank {s : String} (h : isNonEmptyString s = false) :
    ∀ c ∈ (jsToLower s).data, c.isWhitespace = true := by
  intro c hc
  simp only [jsToLower, List.mem_map] at hc
  obtain ⟨d, hd, rfl⟩ := hc
  rw [toLower_of_whitespace (allWhitespace_of_blank h d hd)]
  exact allWhitespace_of_blank h d hd

theorem not_includes_blank {readme : String} (hb : isNonEmptyString readme = false)
    (k : String) (c : Char) (hc : c ∈ (jsToLower k).data)
    (hcw : c.isWhitespace = false) :
    includesStr (jsToLower readme) (jsToLower k) = false := by
  cases hinc : includesStr (jsToLower readme) (jsToLower k) with
  | false => rfl
  | true =>
    have := jsToLower_blank hb c (mem_of_includes hinc hc)
    simp [this] at hcw

theorem keywords_mem {l k : String} (h : k ∈ getLicenseDocumentationKeywords l) :
    k ∈ (["lgpl", "lesser general public license", "mpl", "mozilla public license",
      "mozilla", "epl", "eclipse public license", "eclipse", "cddl",
      "common development", "common development and distribution license"] :
      List String) := by
  unfold getLicenseDocumentationKeywords at h
  split at h
  · simp at h
  · simp only [List.mem_append] at h
    rcases h with ((h | h) | h) | h <;> split at h <;>
      first
        | exact absurd h (List.not_mem_nil k)
        | (simp only [List.mem_cons, List.not_mem_nil, or_false] at h ⊢; tauto)

theorem keyword_not_in_blank {readme l k : String}
    (hb : isNonEmptyString readme = false)
    (hk : k ∈ getLicenseDocumentationKeywords l) :
    includesStr (jsToLower readme) (jsToLower k) = false := by
  have hmem := keywords_mem hk
  simp only [List.mem_cons, List.not_mem_nil, or_false] at hmem
  rcases hmem with rfl | rfl | rfl | rfl | rfl | rfl | rfl | rfl | rfl | rfl | rfl <;>
    exact not_includes_blank hb _ 'l' (by decide) (by decide)

theorem status_of_category_A (pol : LicensePolicy) (dep : Dependency)
    (readme l : String) :
    (evalSingleLicense pol dep readme l).category = some .A →
    (evalSingleLicense pol dep readme l).status = .PASS := by
  intro h
  cases hcat : pol.getLicenseCategoryNormalized l with
  | none => simp [evalSingleLicense, hcat] at h
  | some cat =>
    cases cat with
    | A => simp [evalSingleLicense, hcat]
    | B =>
      simp only [evalSingleLicense, hcat, categoryBEvaluation] at h
      split at h <;> simp at h
    | B_WCL =>
      simp only [evalSingleLicense, hcat, categoryBEvaluation] at h
      split at h <;> simp at h
    | X =>
      simp only [evalSingleLicense, hcat] at h
      split at h
      · split at h <;> simp at h
      · simp at h

theorem status_PASS_of_A {pol : LicensePolicy} {dep : Dependency}
    {readme l : String} (h : pol.getLicenseCategoryNormalized l = some .A) :
    (evalSingleLicense pol dep readme l).status = .PASS := by
  simp [evalSingleLicense, h]

theorem go_noPass (pol : LicensePolicy) (dep : Dependency) (readme : String)
    (licenses : List String) (rest : List String) :
    ∀ acc : List LicenseEvaluation,
      (∀ l ∈ rest, (evalSingleLicense pol dep readme l).status ≠ .PASS) →
      evaluateMultipleLicensesGo pol dep readme licenses rest acc =
        combineEvaluations licenses
          (acc ++ rest.map (evalSingleLicense pol dep readme)) := by
  induction rest with
  | nil => intro acc h; simp [evaluateMultipleLicensesGo]
  | cons l rest ih =>
    intro acc h
    have hA : ((evalSingleLicense pol dep readme l).category == some .A) = false := by
      cases hc : (evalSingleLicense pol dep readme l).category == some LicenseCategory.A
      · rfl
      · exact absurd (status_of_category_A pol dep readme l (by simpa using hc))
          (h l (List.mem_cons_self l rest))
    simp only [evaluateMultipleLicensesGo, hA, Bool.false_eq_true, if_false]
    rw [ih (acc ++ [evalSingleLicense pol dep readme l])
      (fun x hx => h x (List.mem_cons_of_mem l hx))]
    simp

theorem go_pass (pol : LicensePolicy) (dep : Dependency) (readme : String)
    (licenses : List String) (rest : List String) :
    ∀ acc : List LicenseEvaluation,
      ((∃ e ∈ acc, e.status = .PASS) ∨
        ∃ l ∈ rest, (evalSingleLicense pol dep readme l).status = .PASS) →
      (evaluateMultipleLicensesGo pol dep readme licenses rest acc).status = .PASS := by
  induction rest with
  | nil =>
    intro acc h
    rcases h with ⟨e, he, hs⟩ | ⟨l, hl, _⟩
    · simp only [evaluateMultipleLicensesGo, combineEvaluations]
      cases hfind : acc.find? (fun e => e.status == .PASS) with
      | some passed => simpa using List.find?_some hfind
      | none =>
        have := List.find?_eq_none.mp hfind e he
        simp [hs] at this
    · exact absurd hl (List.not_mem_nil l)
  | cons l rest ih =>
    intro acc h
    by_cases hA : ((evalSingleLicense pol dep readme l).category == some .A) = true
    · simp only [evaluateMultipleLicensesGo, hA, if_true]
      exact status_of_category_A pol dep readme l (by simpa using hA)
    · simp only [evaluateMultipleLicensesGo, Bool.not_eq_true] at hA ⊢
      rw [if_neg (by simp [hA])]
      apply ih
      rcases h with ⟨e, he, hs⟩ | ⟨x, hx, hs⟩
      · exact .inl ⟨e, List.mem_append_left _ he, hs⟩
      · rcases List.mem_cons.mp hx with rfl | hx
        · exact .inl ⟨evalSingleLicense pol dep readme x,
            List.mem_append_right _ (List.mem_singleton_self _), hs⟩
        · exact .inr ⟨x, hx, hs⟩

theorem checkDependency_clean (pol : LicensePolicy) (readme : String)
    (dep : Dependency) (ls : List String) (hval : isValidDependency dep = true)
    (hlic : dep.licenses = some ls)
    (hne : ∀ l ∈ ls, isNonEmptyString l = true)
    (hatomic : ∀ l ∈ ls, hasUnsplitSeparator l = false) (hnil : ls ≠ []) :
    checkDependency pol readme dep =
      if ls.length > 1 then
        (let evaluation := evaluateMultipleLicenses pol ls dep readme
         if evaluation.status == .FAIL || evaluation.status == .MANUAL then
           [{ dependency := dep, reason := evaluation.reason,
              issueType := evaluation.issueType.getD .UNKNOWN_LICENSE }]
         else [])
      else singleLicenseIssues pol readme dep (ls.headD "") := by
  have hfilter : ls.filter isNonEmptyString = ls := List.filter_eq_self.mpr hne
  have hunsplit : ls.filter hasUnsplitSeparator = [] :=
    List.filter_eq_nil_iff.mpr (by intro a ha; simp [hatomic a ha])
  simp [checkDependency, hval, hlic, hfilter, hunsplit, hnil]

theorem checkDependency_eval (pol : LicensePolicy) (readme : String)
    (dep : Dependency) (ls : List String) (hval : isValidDependency dep = true)
    (hlic : dep.licenses = some ls)
    (hfne : ls.filter isNonEmptyString ≠ [])
    (hunsplit : (ls.filter isNonEmptyString).filter hasUnsplitSeparator = []) :
    checkDependency pol readme dep =
      (if (ls.filter isNonEmptyString).length > 1 then
        (let evaluation :=
          evaluateMultipleLicenses pol (ls.filter isNonEmptyString) dep readme
         if evaluation.status == .FAIL || evaluation.status == .MANUAL then
           [{ dependency := dep, reason := evaluation.reason,
              issueType := evaluation.issueType.getD .UNKNOWN_LICENSE }]
         else [])
      else singleLicenseIssues pol readme dep ((ls.filter isNonEmptyString).headD "")) := by
  have hnil : ls ≠ [] := by
    rintro rfl
    simp at hfne
  simp [checkDependency, hval, hlic, hfne, hunsplit, hnil]

theorem isEmpty_false_of_mem {α : Type} {l : List α} {x : α} (h : x ∈ l) :
    l.isEmpty = false := by
  cases l
  · exact absurd h (List.not_mem_nil x)
  · rfl

theorem isEmpty_false_of_ne_nil {α : Type} {l : List α} (h : l ≠ []) :
    l.isEmpty = false := by
  cases l
  · exact absurd rfl h
  · rfl

theorem sep_nonEmpty {l : String} (hsep : hasUnsplitSeparator l = true) :
    isNonEmptyString l = true := by
  simp only [hasUnsplitSeparator, Bool.or_eq_true, Bool.and_eq_true] at hsep
  rcases hsep with (((h | h) | h) | ⟨h, _⟩) | h
  · exact isNonEmptyString_of_mem
      (mem_of_includes h (show '|' ∈ "|".data by decide)) (by decide)
  · exact isNonEmptyString_of_mem
      (mem_of_includes h (show 'O' ∈ " OR ".data by decide)) (by decide)
  · exact isNonEmptyString_of_mem
      (mem_of_includes h (show 'A' ∈ " AND ".data by decide)) (by decide)
  · exact isNonEmptyString_of_mem
      (mem_of_includes h (show '(' ∈ "(".data by decide)) (by decide)
  · exact isNonEmptyString_of_mem
      (mem_of_includes h (show 'W' ∈ " WITH ".data by decide)) (by decide)

/-- C2: a dependency whose licenses array contains a string with
multi-license separator syntax (pipe, ` OR `, ` AND `, a parenthesised
expression, or ` WITH `) yields exactly one issue, of the
parser-contract-violation kind, and no unknown-license issue. -/
theorem parser_contract_violation_single_issue (pol : LicensePolicy)
    (dep : Dependency) (readme : String) (ls : List String) (l : String)
    (hval : isValidDependency dep = true) (hlic : dep.licenses = some ls)
    (hl : l ∈ ls) (hsep : hasUnsplitSeparator l = true) :
    ∃ r, checkLicenseCompliance pol (.arr [dep]) (.str readme) =
      ⟨false, [⟨dep, r, .PARSER_ERROR⟩]⟩ := by
  have hne := sep_nonEmpty hsep
  have hlm : l ∈ ls.filter isNonEmptyString := List.mem_filter.mpr ⟨hl, hne⟩
  have hlsep : l ∈ (ls.filter isNonEmptyString).filter hasUnsplitSeparator :=
    List.mem_filter.mpr ⟨hlm, hsep⟩
  have hnil : ls ≠ [] := List.ne_nil_of_mem hl
  have e1 : ls.isEmpty = false := isEmpty_false_of_ne_nil hnil
  have e2 : (ls.filter isNonEmptyString).isEmpty = false :=
    isEmpty_false_of_mem hlm
  have e3 : ((ls.filter isNonEmptyString).filter hasUnsplitSeparator).isEmpty = false :=
    isEmpty_false_of_mem hlsep
  refine ⟨parserErrorReason ((ls.filter isNonEmptyString).filter hasUnsplitSeparator), ?_⟩
  have hmain : checkDependency pol readme dep =
      [{ dependency := dep,
         reason := parserErrorReason ((ls.filter isNonEmptyString).filter hasUnsplitSeparator),
         issueType := .PARSER_ERROR }] := by
    have e3' : (ls.filter (fun a => hasUnsplitSeparator a && isNonEmptyString a)).isEmpty = false := by
      have h3 := e3
      rw [List.filter_filter] at h3
      exact h3
    simp [checkDependency, hval, hlic, e1, e2, e3, e3']
  simp [checkLicenseCompliance, hmain]

/-- C3: a dependency whose atomic licenses list contains an
Approved-category license in any position is compliant: no issue is
recorded, whatever the position of the approved license. -/
theorem approved_license_short_circuits (pol : LicensePolicy)
    (dep : Dependency) (readme : String) (ls : List String) (l : String)
    (hval : isValidDependency dep = true) (hlic : dep.licenses = some ls)
    (hl : l ∈ ls) (hatomic : ∀ x ∈ ls, hasUnsplitSeparator x = false)
    (hne : isNonEmptyString l = true)
    (hA : pol.getLicenseCategoryNormalized l = some .A) :
    checkDependency pol readme dep = [] ∧
    checkLicenseCompliance pol (.arr [dep]) (.str readme) = ⟨true, []⟩ := by
  have hlm : l ∈ ls.filter isNonEmptyString := List.mem_filter.mpr ⟨hl, hne⟩
  have hfne : ls.filter isNonEmptyString ≠ [] := List.ne_nil_of_mem hlm
  have hunsplit : (ls.filter isNonEmptyString).filter hasUnsplitSeparator = [] :=
    List.filter_eq_nil_iff.mpr
      (fun a ha => by simp [hatomic a (List.mem_filter.mp ha).1])
  have hmain : checkDependency pol readme dep = [] := by
    rw [checkDependency_eval pol readme dep ls hval hlic hfne hunsplit]
    by_cases hlen : (ls.filter isNonEmptyString).length > 1
    · rw [if_pos hlen]
      have hstat :
          (evaluateMultipleLicenses pol (ls.filter isNonEmptyString) dep readme).status
            = .PASS := by
        have he : (ls.filter isNonEmptyString).isEmpty = false := by
          simp [List.isEmpty_iff, hfne]
        simp only [evaluateMultipleLicenses, he, Bool.false_eq_true, if_false]
        exact go_pass pol dep readme _ _ []
          (.inr ⟨l, hlm, status_PASS_of_A hA⟩)
      simp [hstat]
    · rw [if_neg hlen]
      have hlen1 : (ls.filter isNonEmptyString).length = 1 := by
        have := List.length_pos.mpr hfne
        omega
      obtain ⟨x, hx⟩ := List.length_eq_one.mp hlen1
      have hxl : x = l := by
        have h2 := hlm
        rw [hx] at h2
        exact (List.mem_singleton.mp h2).symm
      subst hxl
      simp [hx, singleLicenseIssues, hA]
  exact ⟨hmain, by simp [checkLicenseCompliance, hmain]⟩

/-- C10: a dependency whose licenses array is non-empty but contains only
blank strings gets exactly one no-license-info issue with reason
"No valid license information available". -/
theorem blank_licenses_no_valid_info (pol : LicensePolicy) (dep : Dependency)
    (readme : String) (ls : List String) (hval : isValidDependency dep = true)
    (hlic : dep.licenses = some ls) (hnil : ls ≠ [])
    (hblank : ∀ s ∈ ls, isNonEmptyString s = false) :
    checkLicenseCompliance pol (.arr [dep]) (.str readme) =
      ⟨false, [⟨dep, "No valid license information available",
        .NO_LICENSE_INFO⟩]⟩ := by
  have e1 : ls.isEmpty = false := by simp [List.isEmpty_iff, hnil]
  have e2 : ls.filter isNonEmptyString = [] :=
    List.filter_eq_nil_iff.mpr (fun a ha => by simp [hblank a ha])
  have hmain : checkDependency pol readme dep =
      [⟨dep, "No valid license information available", .NO_LICENSE_INFO⟩] := by
    simp [checkDependency, hval, hlic, e1, e2]
  simp [checkLicenseCompliance, hmain]

/-- C7: when two records share the `(name, version)` key and only one of
them carries a non-empty licenses list, deduplication keeps the
license-bearing record, whichever order the two records arrive in. -/
theorem dedup_prefers_licensed (a b : Dependency)
    (hva : isValidDependency a = true) (hvb : isValidDependency b = true)
    (hname : a.name = b.name) (hver : a.version = b.version)
    (ha : hasLicenses a = false) (hb : hasLicenses b = true) :
    deduplicateDependencies [a, b] = [b] ∧
    deduplicateDependencies [b, a] = [b] := by
  have hkey : depKey a = depKey b := by simp [depKey, hname, hver]
  constructor <;>
    simp [deduplicateDependencies, deduplicateStep, hva, hvb, mapHas, mapSet,
      mapGet, hkey, ha, hb]

/-- C5: a single-license Conditional (Category B / B_WCL) dependency is
issue-free exactly when the dependency name or one of the license's keyword
family members appears case-insensitively in the documentation text;
otherwise the recorded issue is of the undocumented-conditional kind. -/
theorem conditional_documentation_gating (pol : LicensePolicy)
    (dep : Dependency) (readme l : String) (cat : LicenseCategory)
    (hval : isValidDependency dep = true) (hlic : dep.licenses = some [l])
    (hne : isNonEmptyString l = true) (hatomic : hasUnsplitSeparator l = false)
    (hcat : pol.getLicenseCategoryNormalized l = some cat)
    (hBC : cat = .B ∨ cat = .B_WCL) :
    (checkDependency pol readme dep = [] ↔
      (includesStr (jsToLower readme) (jsToLower dep.name) = true ∨
        ∃ k ∈ getLicenseDocumentationKeywords l,
          includesStr (jsToLower readme) (jsToLower k) = true)) ∧
    (checkDependency pol readme dep = [] ∨
      ∃ r, checkDependency pol readme dep =
        [⟨dep, r, .UNDOCUMENTED_CATEGORY_B⟩]) := by
  have hred : checkDependency pol readme dep = singleLicenseIssues pol readme dep l := by
    rw [checkDependency_clean pol readme dep [l] hval hlic
      (by intro x hx; rw [List.mem_singleton.mp hx]; exact hne)
      (by intro x hx; rw [List.mem_singleton.mp hx]; exact hatomic)
      (by simp)]
    simp
  have hcatb_iff : isCategoryBLicenseDocumented pol dep readme = true ↔
      (isNonEmptyString readme = true ∧
        ∃ k ∈ getLicenseDocumentationKeywords l,
          includesStr (jsToLower readme) (jsToLower k) = true) := by
    unfold isCategoryBLicenseDocumented
    rw [hlic]
    by_cases hr : isNonEmptyString readme = true
    · rcases hBC with rfl | rfl <;>
        simp [hr, hne, hcat, List.any_eq_true]
    · simp only [Bool.not_eq_true] at hr
      simp [hr]
  have hdoc_iff : isDocumentedInReadme pol dep readme = true ↔
      (includesStr (jsToLower readme) (jsToLower dep.name) = true ∨
        ∃ k ∈ getLicenseDocumentationKeywords l,
          includesStr (jsToLower readme) (jsToLower k) = true) := by
    unfold isDocumentedInReadme
    rw [hval]
    simp only [Bool.not_true, Bool.false_eq_true, if_false, Bool.or_eq_true]
    constructor
    · rintro (h | h)
      · exact .inl h
      · exact .inr (hcatb_iff.mp h).2
    · rintro (h | ⟨k, hk, hki⟩)
      · exact .inl h
      · refine .inr (hcatb_iff.mpr ⟨?_, k, hk, hki⟩)
        by_contra hblank
        simp only [Bool.not_eq_true] at hblank
        rw [keyword_not_in_blank hblank hk] at hki
        exact absurd hki (by simp)
  rw [hred]
  have hsl : singleLicenseIssues pol readme dep l =
      (if !isDocumentedInReadme pol dep readme then
        (if pol.isSpecialException dep.name then
          [{ dependency := dep,
             reason := s!"Category B license '{l}' not documented in README (special exception: {dep.name})",
             issueType := .UNDOCUMENTED_CATEGORY_B }]
        else
          [{ dependency := dep,
             reason := s!"Category B license '{l}' not documented in README",
             issueType := .UNDOCUMENTED_CATEGORY_B }])
      else []) := by
    rcases hBC with rfl | rfl <;> simp [singleLicenseIssues, hcat]
  rw [hsl]
  cases hdoc : isDocumentedInReadme pol dep readme with
  | true =>
    exact ⟨by simp [hdoc_iff.mp hdoc], by simp⟩
  | false =>
    simp only [Bool.not_false, if_true]
    constructor
    · constructor
      · intro h
        cases hexc : pol.isSpecialException dep.name <;>
          simp [hexc] at h
      · intro h
        rw [hdoc_iff.mpr h] at hdoc
        exact absurd hdoc (by simp)
    · right
      cases hexc : pol.isSpecialException dep.name <;> simp [hexc]

/-- C1 (amended): for a multi-license dependency on which no license
evaluates compliant, the evaluator reports a single unknown-license issue
whenever at least one license was unknown, even when another license
produced a prohibited-violation; only when no license was unknown does it
report the first definite failure in listed order. -/
theorem multi_license_unknown_priority (pol : LicensePolicy) (dep : Dependency)
    (readme : String) (ls : List String)
    (hval : isValidDependency dep = true) (hlic : dep.licenses = some ls)
    (hlen : 1 < ls.length)
    (hne : ∀ l ∈ ls, isNonEmptyString l = true)
    (hatomic : ∀ l ∈ ls, hasUnsplitSeparator l = false)
    (hnopass : ∀ l ∈ ls, (evalSingleLicense pol dep readme l).status ≠ .PASS) :
    ((ls.map (evalSingleLicense pol dep readme)).any
        (fun e => e.status == .MANUAL) = true →
      ∃ r, checkDependency pol readme dep = [⟨dep, r, .UNKNOWN_LICENSE⟩]) ∧
    ((ls.map (evalSingleLicense pol dep readme)).any
        (fun e => e.status == .MANUAL) = false →
      ∃ e, (ls.map (evalSingleLicense pol dep readme)).head? = some e ∧
        e.status = .FAIL ∧
        checkDependency pol readme dep =
          [⟨dep, e.reason, e.issueType.getD .UNKNOWN_LICENSE⟩]) := by
  have hnil : ls ≠ [] := by
    intro h
    rw [h] at hlen
    simp at hlen
  have hEmp : ls.isEmpty = false := isEmpty_false_of_ne_nil hnil
  have hgo : evaluateMultipleLicenses pol ls dep readme =
      combineEvaluations ls (ls.map (evalSingleLicense pol dep readme)) := by
    simp only [evaluateMultipleLicenses, hEmp, Bool.false_eq_true, if_false]
    rw [go_noPass pol dep readme ls ls [] hnopass]
    simp
  have hfind : (ls.map (evalSingleLicense pol dep readme)).find?
      (fun e => e.status == .PASS) = none := by
    rw [List.find?_eq_none]
    intro e he
    obtain ⟨x, hx, rfl⟩ := List.mem_map.mp he
    simpa using hnopass x hx
  rw [checkDependency_clean pol readme dep ls hval hlic hne hatomic hnil,
    if_pos hlen]
  constructor
  · intro hman
    have hstat : (combineEvaluations ls
        (ls.map (evalSingleLicense pol dep readme))).status = .MANUAL := by
      unfold combineEvaluations
      rw [hfind, if_pos hman]
    have htype : (combineEvaluations ls
        (ls.map (evalSingleLicense pol dep readme))).issueType =
        some .UNKNOWN_LICENSE := by
      unfold combineEvaluations
      rw [hfind, if_pos hman]
    rw [hgo]
    refine ⟨(combineEvaluations ls
      (ls.map (evalSingleLicense pol dep readme))).reason, ?_⟩
    simp only [hstat, htype]
    rfl
  · intro hman
    cases hls : ls with
    | nil => exact absurd hls hnil
    | cons x xs =>
      subst hls
      have hstat : (evalSingleLicense pol dep readme x).status = .FAIL := by
        have h1 := hnopass x (List.mem_cons_self x xs)
        have h2 := List.any_eq_false.mp hman (evalSingleLicense pol dep readme x)
          (List.mem_map_of_mem _ (List.mem_cons_self x xs))
        cases h : (evalSingleLicense pol dep readme x).status
        · exact absurd h h1
        · rfl
        · rw [h] at h2
          simp at h2
      have hcomb : combineEvaluations (x :: xs)
          ((x :: xs).map (evalSingleLicense pol dep readme)) =
          evalSingleLicense pol dep readme x := by
        unfold combineEvaluations
        rw [hfind, if_neg (by rw [hman]; exact Bool.false_ne_true)]
        rw [List.map_cons, List.find?_cons_of_pos _ (by simp [hstat])]
      rw [hgo, hcomb]
      refine ⟨evalSingleLicense pol dep readme x, by simp, hstat, ?_⟩
      simp only [hstat]
      rfl

/-- C9: for every input path and environment, when the orchestrator body
raises an internal fault (or the path is invalid), `getDependencies`
returns an empty dependency list together with an errors entry whose
source tag is the orchestrator; the function itself is total, so it never
throws. -/
theorem orchestrator_fault_containment (repoPath : String)
    (env : OrchestratorEnv) (st : OrchState)
    (hfault : getDependenciesTry repoPath env = .error st) :
    (getDependencies repoPath env).dependencies = [] ∧
    ∃ e ∈ (getDependencies repoPath env).errors,
      e.source = "dependency-orchestrator" := by
  unfold getDependencies
  by_cases hp : isNonEmptyString repoPath = true
  · simp only [hp, Bool.not_true, Bool.false_eq_true, if_false, hfault]
    constructor
    · trivial
    · exact ⟨⟨"dependency-orchestrator",
        s!"Error extracting dependencies from {repoPath}"⟩,
        List.mem_append_right _ (List.mem_singleton_self _), rfl⟩
  · simp only [Bool.not_eq_true] at hp
    simp only [hp, Bool.not_false, if_true]
    constructor
    · trivial
    · exact ⟨⟨"dependency-orchestrator",
        "Repository path must be a non-empty string"⟩,
        List.mem_singleton_self _, rfl⟩

/-- C9 witness: a concrete environment in which the Maven parser invocation
throws; the orchestrator result is empty and orchestrator-tagged. -/
theorem orchestrator_fault_containment_witness :
    (getDependencies "repo" envMavenThrows).dependencies = [] ∧
    ∃ e ∈ (getDependencies "repo" envMavenThrows).errors,
      e.source = "dependency-orchestrator" :=
  orchestrator_fault_containment "repo" envMavenThrows ⟨[], []⟩ rfl

/-- C6 (amended): when the license-plugin command succeeds but the
third-party report file is absent, the current Maven parser does not fall
back to the dependency-listing command: it returns an empty dependency
list with a single maven-parser warning and no errors, whatever the
dependency-listing output would have contained. -/
theorem maven_missing_report_warning (parse3p : String → List Dependency)
    (repoPath p stdout depList : String) :
    getMavenDependencies parse3p repoPath ⟨some p, .ok stdout, none, depList⟩ =
      ⟨[], [], [⟨"maven-parser",
        "Maven license plugin did not generate THIRD-PARTY.txt file. This typically means the project has no third-party dependencies. Expected location: target/licenses/THIRD-PARTY.txt"⟩]⟩ :=
  rfl

/-- C6 counterexample: with the report file absent and a dependency-listing
output that reports a standard dependency line, the parser still returns no
dependencies (the claim requires a non-empty degraded result parsed from
that listing); the outcome is a warning, not an error. -/
theorem maven_no_fallback_counterexample :
    (getMavenDependencies (fun _ => []) "/repo" mavenEnvNoReport).dependencies = [] ∧
    (getMavenDependencies (fun _ => []) "/repo" mavenEnvNoReport).errors = [] ∧
    (getMavenDependencies (fun _ => []) "/repo" mavenEnvNoReport).warnings.length = 1 :=
  ⟨rfl, rfl, rfl⟩

/-- C8 (amended): for an array dependencies argument the verdict satisfies
`compliant = issues.isEmpty` and a non-string documentation argument is
coerced to the empty string; but a non-array dependencies argument
short-circuits to the special verdict `{compliant: false, issues: []}`
instead of being coerced to an empty array and evaluated normally. -/
theorem compliance_verdict_structure (pol : LicensePolicy)
    (deps : List Dependency) (doc : DocArg) :
    ((checkLicenseCompliance pol (.arr deps) doc).compliant =
      (checkLicenseCompliance pol (.arr deps) doc).issues.isEmpty) ∧
    (checkLicenseCompliance pol (.arr deps) .notString =
      checkLicenseCompliance pol (.arr deps) (.str "")) ∧
    (checkLicenseCompliance pol .notArray doc = ⟨false, []⟩) := by
  refine ⟨?_, rfl, rfl⟩
  cases doc <;> rfl

/-- C8 counterexample: on a non-array dependencies argument the result has
an empty issues list yet `compliant = false`, so the claimed invariant
`compliant = (issues is empty)` fails and the input is not evaluated as an
empty list. -/
theorem compliance_notArray_special_verdict :
    (checkLicenseCompliance testPolicy .notArray (.str "")).compliant = false ∧
    (checkLicenseCompliance testPolicy .notArray (.str "")).issues = [] ∧
    (checkLicenseCompliance testPolicy .notArray (.str "")).compliant ≠
      (checkLicenseCompliance testPolicy .notArray (.str "")).issues.isEmpty :=
  ⟨rfl, rfl, by decide⟩

/-- C4: the compliance evaluator at the spec's end-to-end scenario C inputs,
under the spec-modelled policy in which `LGPL-2.1` is Prohibited with a
special exception for `org.hibernate:hibernate-core`. The undocumented case
reports an issue whose reason references the special-exception name, as
claimed; but the documented case ("This project uses LGPL libraries
(Hibernate)") still reports an undocumented-conditional issue, because
`isCategoryBLicenseDocumented` applies the keyword-family test only to
Conditional-categorised licenses, never to a Prohibited one. -/
theorem special_exception_documentation_divergence :
    (∃ r, checkLicenseCompliance specPolicy (.arr [hibernateDep])
        (.str "This README does not mention any license information") =
        ⟨false, [⟨hibernateDep, r, .UNDOCUMENTED_CATEGORY_B⟩]⟩ ∧
      includesStr r "org.hibernate:hibernate-core" = true) ∧
    ((checkLicenseCompliance specPolicy (.arr [hibernateDep])
        (.str "This project uses LGPL libraries (Hibernate)")).issues.map
          (fun i => i.issueType) = [.UNDOCUMENTED_CATEGORY_B]) := by
  constructor
  · exact ⟨"LGPL license 'LGPL-2.1' requires documentation in README (special exception: org.hibernate:hibernate-core)",
      by decide, by decide⟩
  · decide

/-- C1 counterexample: a dependency holding one unknown license and one
prohibited license (no license compliant); the evaluator reports a single
unknown-license-kind issue even though a prohibited-violation evaluation
exists, where the claim requires the first definite failure. -/
theorem multi_license_unknown_counterexample :
    (checkLicenseCompliance testPolicy (.arr [depUnknownProhibited])
        (.str "")).issues.map (fun i => i.issueType) = [.UNKNOWN_LICENSE] ∧
    (evalSingleLicense testPolicy depUnknownProhibited "" "GPL-3.0").status = .FAIL ∧
    (evalSingleLicense testPolicy depUnknownProhibited "" "GPL-3.0").issueType =
      some .CATEGORY_X_VIOLATION ∧
    (evalSingleLicense testPolicy depUnknownProhibited "" "SomeUnknownLicense").status = .MANUAL ∧
    LicenseIssueType.UNKNOWN_LICENSE ≠ LicenseIssueType.CATEGORY_X_VIOLATION := by
  decide

/-- C1 witness: the amended theorem applied to a concrete dependency pairing
an undocumented Category B license with an unknown one. -/
theorem multi_license_unknown_priority_witness :
    ∃ r, checkDependency testPolicy "" depMplUnknown =
      [⟨depMplUnknown, r, .UNKNOWN_LICENSE⟩] :=
  (multi_license_unknown_priority testPolicy depMplUnknown ""
    ["MPL-2.0", "SomeUnknownLicense"] (by decide) rfl (by decide) (by decide)
    (by decide) (by decide)).1 (by decide)

/-- C2 witness: the parser-contract theorem applied to the unsplit
`Apache-2.0|MIT` test input. -/
theorem parser_contract_violation_witness :
    ∃ r, checkLicenseCompliance testPolicy (.arr [depUnsplit])
      (.str "No license documentation") =
      ⟨false, [⟨depUnsplit, r, .PARSER_ERROR⟩]⟩ :=
  parser_contract_violation_single_issue testPolicy depUnsplit
    "No license documentation" ["Apache-2.0|MIT"] "Apache-2.0|MIT"
    (by decide) rfl (by decide) (by decide)

/-- C3 witness: the short-circuit theorem applied to
`["GPL-3.0", "Apache-2.0"]` and to the swapped order
`["Apache-2.0", "GPL-3.0"]`: both compliant. -/
theorem approved_license_short_circuits_witness :
    checkLicenseCompliance testPolicy (.arr [depGPLApache])
      (.str "No license documentation") = ⟨true, []⟩ ∧
    checkLicenseCompliance testPolicy (.arr [depApacheGPL])
      (.str "No license documentation") = ⟨true, []⟩ :=
  ⟨(approved_license_short_circuits testPolicy depGPLApache
      "No license documentation" ["GPL-3.0", "Apache-2.0"] "Apache-2.0"
      (by decide) rfl (by decide) (by decide) (by decide) (by decide)).2,
   (approved_license_short_circuits testPolicy depApacheGPL
      "No license documentation" ["Apache-2.0", "GPL-3.0"] "Apache-2.0"
      (by decide) rfl (by decide) (by decide) (by decide) (by decide)).2⟩

/-- C5 witness: the documentation-gating theorem applied to an LGPL
dependency whose documentation mentions the `lgpl` keyword. -/
theorem conditional_documentation_gating_witness :
    checkDependency testPolicy
      "This project uses LGPL libraries that are properly documented."
      depLgpl = [] :=
  (conditional_documentation_gating testPolicy depLgpl
    "This project uses LGPL libraries that are properly documented."
    "LGPL-2.1" .B (by decide) rfl (by decide) (by decide) (by decide)
    (.inl rfl)).1.mpr (.inr ⟨"lgpl", by decide, by decide⟩)

/-- C7 witness: the deduplication theorem applied to a concrete colliding
pair, one record without licenses and one with `["MIT"]`. -/
theorem dedup_prefers_licensed_witness :
    deduplicateDependencies [depNoLicense, depWithLicense] = [depWithLicense] ∧
    deduplicateDependencies [depWithLicense, depNoLicense] = [depWithLicense] :=
  dedup_prefers_licensed depNoLicense depWithLicense (by decide) (by decide)
    rfl rfl (by decide) (by decide)

/-- C10 witness: the blank-licenses theorem applied to a dependency whose
licenses array holds an empty and a whitespace-only string. -/
theorem blank_licenses_no_valid_info_witness :
    checkLicenseCompliance testPolicy (.arr [depBlankLicenses])
      (.str "This is a test README") =
      ⟨false, [⟨depBlankLicenses, "No valid license information available",
        .NO_LICENSE_INFO⟩]⟩ :=
  blank_licenses_no_valid_info testPolicy depBlankLicenses
    "This is a test README" ["", "   "] (by decide) rfl (by decide) (by decide)
